import Mathlib

/-!
Verification development for `mcrouter/lib/McReply.h`: the reply value type
of the mcrouter caching-protocol routing layer, its result-code taxonomy
predicates, its constructors, the reply reduction used for fan-out, and the
wire-message bridge.

Shallow embedding conventions:
* `mc_res_t` is the closed result-code enumeration.  The header only names
  the codes it uses (the enum itself lives in `mc/msg.h`); the constructors
  below are exactly the codes referenced by `McReply.h`.
* Byte buffers (`folly::IOBuf`, `folly::StringPiece` payloads) are `List Nat`.
* Reference-counted wire messages (`McMsgRef` / `mc_msg_t`) live in an
  explicit heap `MsgHeap` of (refcount, message) cells addressed by index;
  `McReply.msg_` stores an optional cell index.
* C-style pointers (`void*` contexts, function pointers) are `Nat`, with `0`
  playing the role of the null pointer.
-/

/-- The result-code enumeration `mc_res_t`.  The enum definition is in
`mc/msg.h`; these are the codes `McReply.h` references (which coincide with
the codes the specification enumerates). -/
inductive mc_res_t where
  | mc_res_unknown
  | mc_res_deleted
  | mc_res_touched
  | mc_res_found
  | mc_res_foundstale
  | mc_res_notfound
  | mc_res_notfoundhot
  | mc_res_stalestored
  | mc_res_stored
  | mc_res_timeout
  | mc_res_connect_timeout
  | mc_res_connect_error
  | mc_res_busy
  | mc_res_try_again
  | mc_res_tko
  | mc_res_local_error
  | mc_res_remote_error
  deriving DecidableEq, Fintype

open mc_res_t

/-- Modelled from the spec: the body of `isErrorResult` is in the absent
`McReply-inl.h`; the header only declares it.  Per the spec, the error
category contains the TKO / connect-error / connect-timeout codes, the
data-timeout codes (timeout, remote-error), the redirect codes (busy,
try-again) and local-error, while unknown and the hit/miss/hot-miss/stored
codes are non-errors. -/
def isErrorResult (result : mc_res_t) : Bool :=
  match result with
  | mc_res_tko | mc_res_local_error | mc_res_connect_error
  | mc_res_connect_timeout | mc_res_timeout | mc_res_remote_error
  | mc_res_busy | mc_res_try_again => true
  | _ => false

/-- Modelled from the spec: the body of `isFailoverErrorResult` is in the
absent `McReply-inl.h`.  Per the spec a failover-error is "any error
classification that the routing layer is willing to retry against an
alternate destination", and TKO and soft/hard TKO errors are failover
errors; we model the failover-error set as the error set. -/
def isFailoverErrorResult (result : mc_res_t) : Bool :=
  isErrorResult result

/-- Modelled from the spec: the body of `isSoftTkoErrorResult` is in the
absent `McReply-inl.h`.  Soft TKO errors are errors that might have reached
the server; we model them as the data-phase timeout code. -/
def isSoftTkoErrorResult (result : mc_res_t) : Bool :=
  result == mc_res_timeout

/-- Modelled from the spec: the body of `isHardTkoErrorResult` is in the
absent `McReply-inl.h`.  Hard TKO errors are errors that definitely did not
reach the server; we model them as the connect-phase failures. -/
def isHardTkoErrorResult (result : mc_res_t) : Bool :=
  result == mc_res_connect_error || result == mc_res_connect_timeout

/-- Source `isTkoResult` from `McReply.h`: `result == mc_res_tko`. -/
def isTkoResult (result : mc_res_t) : Bool :=
  result == mc_res_tko

/-- Source `isLocalErrorResult` from `McReply.h`: `result == mc_res_local_error`. -/
def isLocalErrorResult (result : mc_res_t) : Bool :=
  result == mc_res_local_error

/-- Source `isConnectErrorResult` from `McReply.h`. -/
def isConnectErrorResult (result : mc_res_t) : Bool :=
  result == mc_res_connect_error

/-- Source `isConnectTimeoutResult` from `McReply.h`. -/
def isConnectTimeoutResult (result : mc_res_t) : Bool :=
  result == mc_res_connect_timeout

/-- Source `isDataTimeoutResult` from `McReply.h`:
`result == mc_res_timeout || result == mc_res_remote_error`. -/
def isDataTimeoutResult (result : mc_res_t) : Bool :=
  result == mc_res_timeout || result == mc_res_remote_error

/-- Source `isRedirectResult` from `McReply.h`:
`result == mc_res_busy || result == mc_res_try_again`. -/
def isRedirectResult (result : mc_res_t) : Bool :=
  result == mc_res_busy || result == mc_res_try_again

/-- Source `isHitResult` from `McReply.h`:
`result == mc_res_deleted || result == mc_res_found || result == mc_res_touched`. -/
def isHitResult (result : mc_res_t) : Bool :=
  result == mc_res_deleted || result == mc_res_found || result == mc_res_touched

/-- Source `isMissResult` from `McReply.h`: `result == mc_res_notfound`. -/
def isMissResult (result : mc_res_t) : Bool :=
  result == mc_res_notfound

/-- Source `isHotMissResult` from `McReply.h`:
`result == mc_res_foundstale || result == mc_res_notfoundhot`. -/
def isHotMissResult (result : mc_res_t) : Bool :=
  result == mc_res_foundstale || result == mc_res_notfoundhot

/-- Source `isStoredResult` from `McReply.h`:
`result == mc_res_stored || result == mc_res_stalestored`. -/
def isStoredResult (result : mc_res_t) : Bool :=
  result == mc_res_stored || result == mc_res_stalestored

/-- A wire message `mc_msg_t` (fields McReply reads or writes). -/
structure mc_msg_t where
  result : mc_res_t := mc_res_unknown
  op : Nat := 0
  value : List Nat := []
  ip_addr : List Nat := List.replicate 16 0
  ipv : Nat := 0
  flags : Nat := 0
  deriving DecidableEq

/-- The heap of reference-counted wire messages backing `McMsgRef` handles.
A handle is an index into `cells`; each cell is (refcount, message), and a
cell with refcount `0` is freed. -/
structure MsgHeap where
  cells : List (Nat × mc_msg_t)
  deriving DecidableEq

/-- Look up a live wire message: `some` only while its refcount is positive. -/
def MsgHeap.lookup (h : MsgHeap) (id : Nat) : Option mc_msg_t :=
  match h.cells.get? id with
  | some c => if 0 < c.1 then some c.2 else none
  | none => none

/-- Source `createMcMsgRef`: allocate a fresh message cell with refcount 1,
returning the new heap and the handle. -/
def MsgHeap.alloc (h : MsgHeap) (m : mc_msg_t) : MsgHeap × Nat :=
  (⟨h.cells ++ [(1, m)]⟩, h.cells.length)

/-- Decrement the refcount of cell `id` (releasing one `McMsgRef`). -/
def decrefCells : List (Nat × mc_msg_t) → Nat → List (Nat × mc_msg_t)
  | [], _ => []
  | c :: cs, 0 => (c.1 - 1, c.2) :: cs
  | c :: cs, Nat.succ n => c :: decrefCells cs n

/-- Release one reference to handle `id`. -/
def MsgHeap.decref (h : MsgHeap) (id : Nat) : MsgHeap :=
  ⟨decrefCells h.cells id⟩

/-- The `McReply` value type, private fields as declared in `McReply.h`
(defaults are the in-class member initializers): `msg_` an optional wire
message handle, `result_` defaulting to `mc_res_unknown`, `valueData_` an
optional payload buffer, `destination_` an optional shared endpoint
descriptor (modelled abstractly by an identifier), the scalar fields, and
`destructor_` an optional C-style cleanup hook `(ctx, destructor)` as
stored in `CUniquePtr(ctx, destructor)`. -/
structure McReply where
  msg_ : Option Nat := none
  result_ : mc_res_t := mc_res_unknown
  valueData_ : Option (List Nat) := none
  destination_ : Option Nat := none
  flags_ : Nat := 0
  leaseToken_ : Nat := 0
  delta_ : Nat := 0
  cas_ : Nat := 0
  errCode_ : Nat := 0
  number_ : Nat := 0
  exptime_ : Nat := 0
  destructor_ : Option (Nat × Nat) := none
  deriving DecidableEq

/-- Source `McReply() = default`. -/
def mcReplyDefault : McReply := {}

/-- Source `McReply(mc_res_t result)`: sets `result_`, everything else default
(body in the absent `McReply-inl.h`; modelled from the spec's "sets result
to the caller-supplied code", with no payload). -/
def mcReplyOfResult (res : mc_res_t) : McReply :=
  { result_ := res }

/-- Modelled from the spec: `McReply(mc_res_t result, folly::StringPiece
value)` (body in the absent `McReply-inl.h`) "sets result to the
caller-supplied code and payload to the given bytes (owned copy)". -/
def mcReplyOfResultValue (res : mc_res_t) (v : List Nat) : McReply :=
  { result_ := res, valueData_ := some v }

/-- Source `McReply(ErrorReplyT)`, delegating to `McReply(mc_res_local_error)`. -/
def mcReplyError : McReply := mcReplyOfResult mc_res_local_error

/-- Source `McReply(ErrorReplyT, valueToSet)`, delegating to
`McReply(mc_res_local_error, valueToSet)`. -/
def mcReplyErrorWith (valueToSet : List Nat) : McReply :=
  mcReplyOfResultValue mc_res_local_error valueToSet

/-- Source `McReply(TkoReplyT)`, delegating to `McReply(mc_res_tko)`. -/
def mcReplyTko : McReply := mcReplyOfResult mc_res_tko

/-- Source `McReply::isError()`. -/
def McReply.isError (r : McReply) : Bool := isErrorResult r.result_

/-- Source `McReply::isFailoverError()`. -/
def McReply.isFailoverError (r : McReply) : Bool := isFailoverErrorResult r.result_

/-- Source `McReply::isSoftTkoError()`. -/
def McReply.isSoftTkoError (r : McReply) : Bool := isSoftTkoErrorResult r.result_

/-- Source `McReply::isHardTkoError()`. -/
def McReply.isHardTkoError (r : McReply) : Bool := isHardTkoErrorResult r.result_

/-- Source `McReply::isTko()`. -/
def McReply.isTko (r : McReply) : Bool := isTkoResult r.result_

/-- Source `McReply::isLocalError()`. -/
def McReply.isLocalError (r : McReply) : Bool := isLocalErrorResult r.result_

/-- Source `McReply::isConnectError()`. -/
def McReply.isConnectError (r : McReply) : Bool := isConnectErrorResult r.result_

/-- Source `McReply::isConnectTimeout()`. -/
def McReply.isConnectTimeout (r : McReply) : Bool := isConnectTimeoutResult r.result_

/-- Source `McReply::isDataTimeout()`. -/
def McReply.isDataTimeout (r : McReply) : Bool := isDataTimeoutResult r.result_

/-- Source `McReply::isRedirect()`. -/
def McReply.isRedirect (r : McReply) : Bool := isRedirectResult r.result_

/-- Source `McReply::isHit()`. -/
def McReply.isHit (r : McReply) : Bool := isHitResult r.result_

/-- Source `McReply::isMiss()`. -/
def McReply.isMiss (r : McReply) : Bool := isMissResult r.result_

/-- Source `McReply::isHotMiss()`. -/
def McReply.isHotMiss (r : McReply) : Bool := isHotMissResult r.result_

/-- Source `McReply::isStored()`. -/
def McReply.isStored (r : McReply) : Bool := isStoredResult r.result_

/-- Source `McReply::hasValue()`: `valueData_.hasValue()`. -/
def McReply.hasValue (r : McReply) : Bool := r.valueData_.isSome

/-- Source `McReply::value()`: `hasValue() ? valueData_.value() : emptyBuffer`. -/
def McReply.value (r : McReply) : List Nat :=
  match r.valueData_ with
  | some v => v
  | none => []

/-- Source `McReply::result()`. -/
def McReply.result (r : McReply) : mc_res_t := r.result_

/-- Source `McReply::ipv()`: `msg_.get() ? msg_->ipv : 0`.  A dead handle reads as
no handle (in C++ it would be a dangling pointer; theorems only use it with
live handles). -/
def McReply.ipv (h : MsgHeap) (r : McReply) : Nat :=
  match r.msg_ with
  | some id =>
    match h.lookup id with
    | some m => m.ipv
    | none => 0
  | none => 0

/-- The zero-initialized function-local `static struct in6_addr addr`
returned by `ipAddress()` when no handle is attached. -/
def zeroIpAddr : List Nat := List.replicate 16 0

/-- Source `McReply::ipAddress()`: `msg_.get() ? msg_->ip_addr : addr` where
`addr` is the zero-initialized static. -/
def McReply.ipAddress (h : MsgHeap) (r : McReply) : List Nat :=
  match r.msg_ with
  | some id =>
    match h.lookup id with
    | some m => m.ip_addr
    | none => zeroIpAddr
  | none => zeroIpAddr

/-- Source `McReply::setIpAddress(addr, ipVersion)`: allocates a fresh message via
`createMcMsgRef()`, stores the address and version in it, and moves it into
`msg_`; the move assignment releases the previously attached handle, if
any. -/
def McReply.setIpAddress (h : MsgHeap) (r : McReply) (addr : List Nat)
    (ipVersion : Nat) : MsgHeap × McReply :=
  let p := h.alloc { ip_addr := addr, ipv := ipVersion }
  let h2 := match r.msg_ with
    | some old => p.1.decref old
    | none => p.1
  (h2, { r with msg_ := some p.2 })

/-- Source `McReply::setDestructor(destructor, ctx)`: guarded by
`assert(!destructor_.hasValue())`; returns `none` exactly when that
assertion fires (a contract violation), otherwise stores
`CUniquePtr(ctx, destructor)`. -/
def McReply.setDestructor (r : McReply) (destructor ctx : Nat) : Option McReply :=
  if r.destructor_.isSome then none
  else some { r with destructor_ := some (ctx, destructor) }

/-- Destruction of an `McReply` (`~McReply() = default`): releases the held
`McMsgRef`, and destroys the `folly::Optional<CUniquePtr>`; per
`std::unique_ptr` semantics the deleter runs only when the stored pointer
(the ctx) is non-null, matching the header comment "If destructor/ctx are
non-null, will call destructor(ctx)".  Returns the heap after release and
the list of hook invocations `(ctx, destructor)` performed. -/
def McReply.destroy (h : MsgHeap) (r : McReply) : MsgHeap × List (Nat × Nat) :=
  (match r.msg_ with
   | some id => h.decref id
   | none => h,
   match r.destructor_ with
   | some (ctx, destructor) => if ctx ≠ 0 then [(ctx, destructor)] else []
   | none => [])

/-- Modelled from the spec: `McReply::releasedMsg(op)` (body absent from
`src/`) "builds a self-contained handle (deep-copies or
reference-increments payload bytes as needed) whose lifetime is fully
decoupled from the source ReplyValue; the source ReplyValue remains valid
and unchanged".  We model the self-contained handle as a freshly allocated
message holding copies of the reply's result, the op, and the payload
bytes; the source reply is returned unchanged (the method is `const`). -/
def McReply.releasedMsg (h : MsgHeap) (r : McReply) (op : Nat) :
    MsgHeap × McReply × Nat :=
  let p := h.alloc { result := r.result_, op := op, value := r.value }
  (p.1, r, p.2)

/-- Modelled from the spec: the severity table behind `McReply::worseThan`
and `McReply::reduce` (bodies absent from `src/`).  Per the spec, any error
outranks any non-error; within errors the destination-unusable codes (TKO,
connect-error, connect-timeout) outrank completed-but-unsuccessful codes
(data-timeout, redirect); the fine-grained rank of local-error among errors
is a policy choice, placed in the lower error band. -/
def resultSeverity (result : mc_res_t) : Nat :=
  match result with
  | mc_res_tko | mc_res_connect_error | mc_res_connect_timeout => 3
  | mc_res_local_error | mc_res_timeout | mc_res_remote_error
  | mc_res_busy | mc_res_try_again => 2
  | _ => 0

/-- Source `McReply::worseThan(other)`: true when this reply's result is strictly
more severe than `other.result()` (body absent from `src/`, modelled from
the spec's severity ordering). -/
def McReply.worseThan (r other : McReply) : Bool :=
  decide (resultSeverity other.result_ < resultSeverity r.result_)

/-- The scanning loop of `McReply::reduce`: walks the remaining replies
keeping the (index, element) of the most awful reply seen so far, replacing
it only on a strictly worse reply, so the earliest among equally severe
replies wins.  `i` is the absolute index of the head of `rs`. -/
def reduceScan (rs : List McReply) (acc : Nat × McReply) (i : Nat) :
    Nat × McReply :=
  match rs with
  | [] => acc
  | r :: rest =>
    reduceScan rest (if r.worseThan acc.2 then (i, r) else acc) (i + 1)

/-- Modelled from the spec: `McReply::reduce(begin, end)` (body absent from
`src/`) picks one reply from the range: the worst under the severity
ordering, earliest position winning ties.  Iterators over the range are
modelled as indices into the list; an empty range returns its end index
(`0`). -/
def McReply.reduce (replies : List McReply) : Nat :=
  match replies with
  | [] => 0
  | r :: rest => (reduceScan rest (0, r) 1).1

/-- The list of leaf classification predicates of the taxonomy (those whose
bodies `McReply.h` defines directly). -/
def leafResultPredicates : List (mc_res_t → Bool) :=
  [isTkoResult, isLocalErrorResult, isConnectErrorResult,
   isConnectTimeoutResult, isDataTimeoutResult, isRedirectResult,
   isHitResult, isMissResult, isHotMissResult, isStoredResult]

/-- The reduction contract for a reply list: the chosen index is in range,
no element of the list is worse than the chosen element, and every element
strictly before the chosen index is strictly less severe (so among equally
severe candidates the earliest position wins). -/
def ReduceContract (l : List McReply) : Prop :=
  ∃ hk : McReply.reduce l < l.length,
    (∀ (j : Nat) (hj : j < l.length),
      McReply.worseThan (l.get ⟨j, hj⟩) (l.get ⟨McReply.reduce l, hk⟩) = false) ∧
    (∀ (j : Nat) (hj : j < l.length), j < McReply.reduce l →
      resultSeverity (l.get ⟨j, hj⟩).result_ <
        resultSeverity (l.get ⟨McReply.reduce l, hk⟩).result_)

theorem worseThan_iff (a b : McReply) :
    a.worseThan b = true ↔
      resultSeverity b.result_ < resultSeverity a.result_ := by
  simp [McReply.worseThan]

theorem reduceScan_max (rs : List McReply) (acc : Nat × McReply) (i : Nat) :
    resultSeverity acc.2.result_ ≤
        resultSeverity (reduceScan rs acc i).2.result_ ∧
    ∀ x ∈ rs, resultSeverity x.result_ ≤
        resultSeverity (reduceScan rs acc i).2.result_ := by
  induction rs generalizing acc i with
  | nil =>
    exact ⟨Nat.le_refl _, fun x hx => absurd hx (List.not_mem_nil x)⟩
  | cons r rest ih =>
    simp only [reduceScan]
    by_cases hw : r.worseThan acc.2 = true
    · rw [if_pos hw]
      have hlt := (worseThan_iff r acc.2).1 hw
      have h2 := ih (i, r) (i + 1)
      refine ⟨Nat.le_trans (Nat.le_of_lt hlt) h2.1, ?_⟩
      intro x hx
      rcases List.mem_cons.1 hx with hx | hx
      · rw [hx]; exact h2.1
      · exact h2.2 x hx
    · rw [if_neg hw]
      have hle : resultSeverity r.result_ ≤ resultSeverity acc.2.result_ :=
        Nat.le_of_not_lt (fun hc => hw ((worseThan_iff r acc.2).2 hc))
      have h2 := ih acc (i + 1)
      refine ⟨h2.1, ?_⟩
      intro x hx
      rcases List.mem_cons.1 hx with hx | hx
      · rw [hx]; exact Nat.le_trans hle h2.1
      · exact h2.2 x hx

theorem reduceScan_pos (rs : List McReply) (acc : Nat × McReply) (i : Nat) :
    reduceScan rs acc i = acc ∨
    ∃ j, ∃ hj : j < rs.length,
      reduceScan rs acc i = (i + j, rs.get ⟨j, hj⟩) ∧
      resultSeverity acc.2.result_ <
        resultSeverity (rs.get ⟨j, hj⟩).result_ := by
  induction rs generalizing acc i with
  | nil => exact Or.inl rfl
  | cons r rest ih =>
    simp only [reduceScan]
    by_cases hw : r.worseThan acc.2 = true
    · rw [if_pos hw]
      have hlt := (worseThan_iff r acc.2).1 hw
      rcases ih (i, r) (i + 1) with h | ⟨j, hj, heq, hsev⟩
      · right
        refine ⟨0, Nat.succ_pos _, ?_, ?_⟩
        · rw [h]; rfl
        · exact hlt
      · right
        refine ⟨j + 1, Nat.succ_lt_succ hj, ?_, ?_⟩
        · rw [heq]
          have harith : i + (j + 1) = i + 1 + j := by omega
          rw [harith]; rfl
        · exact Nat.lt_trans hlt hsev
    · rw [if_neg hw]
      rcases ih acc (i + 1) with h | ⟨j, hj, heq, hsev⟩
      · exact Or.inl h
      · right
        refine ⟨j + 1, Nat.succ_lt_succ hj, ?_, ?_⟩
        · rw [heq]
          have harith : i + (j + 1) = i + 1 + j := by omega
          rw [harith]; rfl
        · exact hsev

theorem reduceScan_earlier (rs : List McReply) (acc : Nat × McReply) (i : Nat)
    (hacc : acc.1 < i) :
    ∀ (j : Nat) (hj : j < rs.length), i + j < (reduceScan rs acc i).1 →
      resultSeverity (rs.get ⟨j, hj⟩).result_ <
        resultSeverity (reduceScan rs acc i).2.result_ := by
  induction rs generalizing acc i with
  | nil => intro j hj; exact absurd hj (Nat.not_lt_zero j)
  | cons r rest ih =>
    simp only [reduceScan]
    by_cases hw : r.worseThan acc.2 = true
    · rw [if_pos hw]
      intro j hj hlt
      cases j with
      | zero =>
        rcases reduceScan_pos rest (i, r) (i + 1) with h | ⟨j', hj', heq, hsev⟩
        · rw [h] at hlt
          simp at hlt
        · rw [heq]
          exact hsev
      | succ j' =>
        have hj'' : j' < rest.length := Nat.lt_of_succ_lt_succ hj
        have harith : i + (j' + 1) = i + 1 + j' := by omega
        rw [harith] at hlt
        exact ih (i, r) (i + 1) (Nat.lt_succ_self i) j' hj'' hlt
    · rw [if_neg hw]
      have hle : resultSeverity r.result_ ≤ resultSeverity acc.2.result_ :=
        Nat.le_of_not_lt (fun hc => hw ((worseThan_iff r acc.2).2 hc))
      intro j hj hlt
      cases j with
      | zero =>
        rcases reduceScan_pos rest acc (i + 1) with h | ⟨j', hj', heq, hsev⟩
        · rw [h] at hlt
          omega
        · rw [heq]
          exact Nat.lt_of_le_of_lt hle hsev
      | succ j' =>
        have hj'' : j' < rest.length := Nat.lt_of_succ_lt_succ hj
        have harith : i + (j' + 1) = i + 1 + j' := by omega
        rw [harith] at hlt
        exact ih acc (i + 1) (Nat.lt_trans hacc (Nat.lt_succ_self i)) j' hj'' hlt

theorem getq_concat_self (cs : List (Nat × mc_msg_t)) (c : Nat × mc_msg_t) :
    (cs ++ [c]).get? cs.length = some c := by
  induction cs with
  | nil => rfl
  | cons a as ih => exact ih

theorem decrefCells_get_ne (cs : List (Nat × mc_msg_t)) (i j : Nat)
    (hne : j ≠ i) : (decrefCells cs i).get? j = cs.get? j := by
  induction cs generalizing i j with
  | nil => rfl
  | cons c cs ih =>
    cases i with
    | zero =>
      cases j with
      | zero => exact absurd rfl hne
      | succ j => rfl
    | succ i =>
      cases j with
      | zero => rfl
      | succ j => exact ih i j (fun hh => hne (by rw [hh]))

theorem lookup_alloc (h : MsgHeap) (m : mc_msg_t) :
    MsgHeap.lookup (MsgHeap.alloc h m).1 (MsgHeap.alloc h m).2 = some m := by
  show (match (h.cells ++ [(1, m)]).get? h.cells.length with
        | some c => if 0 < c.1 then some c.2 else none
        | none => none) = some m
  rw [getq_concat_self]
  rfl

theorem lookup_alloc_decref (h : MsgHeap) (m : mc_msg_t) (old : Nat)
    (hne : h.cells.length ≠ old) :
    MsgHeap.lookup ((MsgHeap.alloc h m).1.decref old)
      (MsgHeap.alloc h m).2 = some m := by
  show (match (decrefCells (h.cells ++ [(1, m)]) old).get? h.cells.length with
        | some c => if 0 < c.1 then some c.2 else none
        | none => none) = some m
  rw [decrefCells_get_ne _ _ _ hne, getq_concat_self]
  rfl

/-- C1: for every `ResultCode`, `isTkoResult(code)` implies
`isErrorResult(code)`; in particular a `McReply` whose result is
`mc_res_tko` satisfies both `isTko()` and `isError()`. -/
theorem mcreply_C1_tko_implies_error :
    (∀ c : mc_res_t, isTkoResult c = true → isErrorResult c = true) ∧
    (∀ r : McReply, r.result_ = mc_res_tko →
      r.isTko = true ∧ r.isError = true) := by
  constructor
  · decide
  · intro r hr
    simp [McReply.isTko, McReply.isError, isTkoResult, isErrorResult, hr]

/-- C1 witness: the implication instantiated at `mc_res_tko` and at the
TKO-constructed reply. -/
theorem mcreply_C1_witness :
    isErrorResult mc_res_tko = true ∧
    (mcReplyTko.isTko = true ∧ mcReplyTko.isError = true) :=
  ⟨mcreply_C1_tko_implies_error.1 mc_res_tko (by decide),
   mcreply_C1_tko_implies_error.2 mcReplyTko (by decide)⟩

/-- C2: on a non-empty sequence, `reduce` returns an in-range position
holding a reply no other element is `worseThan`, with ties of equal
severity broken in favour of the earliest position; `reduce` of a
singleton is that element; and under `worseThan` any error-classified
reply outranks any non-error reply. -/
theorem mcreply_C2_reduce_worst (l : List McReply) (hne : l ≠ []) :
    ReduceContract l ∧
    (∀ r : McReply, McReply.reduce [r] = 0) ∧
    (∀ a b : McReply, a.isError = true → b.isError = false →
      a.worseThan b = true) := by
  refine ⟨?_, fun r => rfl, ?_⟩
  · obtain ⟨r, rest, rfl⟩ : ∃ r rest, l = r :: rest := by
      cases l with
      | nil => exact absurd rfl hne
      | cons a as => exact ⟨a, as, rfl⟩
    have hmax := reduceScan_max rest (0, r) 1
    rcases reduceScan_pos rest (0, r) 1 with h | ⟨j, hj, heq, hsev⟩
    · have hred : McReply.reduce (r :: rest) = 0 := by
        show (reduceScan rest (0, r) 1).1 = 0
        rw [h]
      rw [h] at hmax
      refine ⟨by rw [hred, List.length_cons]; omega, ?_, ?_⟩
      · simp only [hred]
        intro j₂ hj₂
        simp only [McReply.worseThan, decide_eq_false_iff_not, Nat.not_lt]
        cases j₂ with
        | zero => exact Nat.le_refl _
        | succ j₂' =>
          exact hmax.2 _ (List.get_mem rest _ _)
      · simp only [hred]
        intro j₂ hj₂ hlt
        exact absurd hlt (Nat.not_lt_zero j₂)
    · have hred : McReply.reduce (r :: rest) = j + 1 := by
        show (reduceScan rest (0, r) 1).1 = j + 1
        rw [heq]
        show 1 + j = j + 1
        omega
      rw [heq] at hmax
      refine ⟨by rw [hred, List.length_cons]; omega, ?_, ?_⟩
      · simp only [hred]
        intro j₂ hj₂
        simp only [McReply.worseThan, decide_eq_false_iff_not, Nat.not_lt]
        cases j₂ with
        | zero => exact hmax.1
        | succ j₂' =>
          exact hmax.2 _ (List.get_mem rest _ _)
      · simp only [hred]
        intro j₂ hj₂ hlt
        cases j₂ with
        | zero => exact hsev
        | succ j₂' =>
          have hj₂'' : j₂' < rest.length := Nat.lt_of_succ_lt_succ hj₂
          have he := reduceScan_earlier rest (0, r) 1 Nat.zero_lt_one j₂' hj₂''
            (by rw [heq]; show 1 + j₂' < 1 + j; omega)
          rw [heq] at he
          exact he
  · intro a b ha hb
    have hsev : ∀ ca cb : mc_res_t, isErrorResult ca = true →
        isErrorResult cb = false →
        resultSeverity cb < resultSeverity ca := by decide
    simpa [McReply.worseThan] using hsev a.result_ b.result_ ha hb

/-- C2 witness: the contract instantiated on the spec's example sequence
`[stored, notfound, tko]`, on which `reduce` picks position 2 (the TKO
reply, an error outranking the non-errors). -/
theorem mcreply_C2_witness :
    ([mcReplyOfResult mc_res_stored, mcReplyOfResult mc_res_notfound,
        mcReplyTko] : List McReply) ≠ [] ∧
    McReply.reduce [mcReplyOfResult mc_res_stored,
        mcReplyOfResult mc_res_notfound, mcReplyTko] = 2 ∧
    (ReduceContract [mcReplyOfResult mc_res_stored,
        mcReplyOfResult mc_res_notfound, mcReplyTko] ∧
      (∀ r : McReply, McReply.reduce [r] = 0) ∧
      (∀ a b : McReply, a.isError = true → b.isError = false →
        a.worseThan b = true)) :=
  ⟨by decide, rfl,
   mcreply_C2_reduce_worst
     [mcReplyOfResult mc_res_stored, mcReplyOfResult mc_res_notfound,
       mcReplyTko] (by decide)⟩

/-- C3: every taxonomy predicate is a total boolean function on the
result-code enumeration (a defined true/false for every code), and the
default code `mc_res_unknown` classifies as non-error. -/
theorem mcreply_C3_taxonomy_total :
    (∀ c : mc_res_t,
      (isErrorResult c = true ∨ isErrorResult c = false) ∧
      (isFailoverErrorResult c = true ∨ isFailoverErrorResult c = false) ∧
      (isSoftTkoErrorResult c = true ∨ isSoftTkoErrorResult c = false) ∧
      (isHardTkoErrorResult c = true ∨ isHardTkoErrorResult c = false) ∧
      (isTkoResult c = true ∨ isTkoResult c = false) ∧
      (isLocalErrorResult c = true ∨ isLocalErrorResult c = false) ∧
      (isConnectErrorResult c = true ∨ isConnectErrorResult c = false) ∧
      (isConnectTimeoutResult c = true ∨ isConnectTimeoutResult c = false) ∧
      (isDataTimeoutResult c = true ∨ isDataTimeoutResult c = false) ∧
      (isRedirectResult c = true ∨ isRedirectResult c = false) ∧
      (isHitResult c = true ∨ isHitResult c = false) ∧
      (isMissResult c = true ∨ isMissResult c = false) ∧
      (isHotMissResult c = true ∨ isHotMissResult c = false) ∧
      (isStoredResult c = true ∨ isStoredResult c = false)) ∧
    isErrorResult mc_res_unknown = false := by
  constructor
  · intro c
    refine ⟨?_, ?_, ?_, ?_, ?_, ?_, ?_, ?_, ?_, ?_, ?_, ?_, ?_, ?_⟩ <;>
      cases (Bool.dichotomy _) with
      | inl hh => exact Or.inr hh
      | inr hh => exact Or.inl hh
  · rfl

/-- C4, as stated, is refuted at a concrete input: a hook attached with a
null ctx is accepted by `setDestructor` (so it counts as "attached"), yet
destruction performs no invocation at all — the `CUniquePtr` deleter only
runs on a non-null stored pointer, as the header's own comment says ("If
destructor/ctx are non-null, will call destructor(ctx)"). -/
theorem mcreply_C4_counterexample :
    McReply.setDestructor mcReplyDefault 5 0 =
      some { mcReplyDefault with destructor_ := some (0, 5) } ∧
    (McReply.destroy ⟨[]⟩
        { mcReplyDefault with destructor_ := some (0, 5) }).2 = [] ∧
    (McReply.destroy ⟨[]⟩
        { mcReplyDefault with destructor_ := some (0, 5) }).2 ≠ [(0, 5)] := by
  refine ⟨rfl, rfl, ?_⟩
  decide

/-- C4 (amended): calling `setDestructor` with a hook already attached is
the contract violation guarded by `assert(!destructor_.hasValue())`
(modelled as returning `none`); with no hook attached the hook is stored;
and an attached hook whose ctx is non-null is invoked exactly once, at
destruction of the owning reply. -/
theorem mcreply_C4_cleanup_once :
    (∀ (r : McReply) (d c : Nat), r.destructor_.isSome = true →
      McReply.setDestructor r d c = none) ∧
    (∀ (r : McReply) (d c : Nat), r.destructor_ = none →
      McReply.setDestructor r d c =
        some { r with destructor_ := some (c, d) }) ∧
    (∀ (h : MsgHeap) (r : McReply) (c d : Nat),
      r.destructor_ = some (c, d) → c ≠ 0 →
      (McReply.destroy h r).2 = [(c, d)]) := by
  refine ⟨?_, ?_, ?_⟩
  · intro r d c hs
    simp [McReply.setDestructor, hs]
  · intro r d c hn
    simp [McReply.setDestructor, hn]
  · intro h r c d hd hc
    simp [McReply.destroy, hd, hc]

/-- C4 witness: the amended claim instantiated on a reply carrying hook
`(ctx, fn) = (7, 5)` and on a second attach attempt. -/
theorem mcreply_C4_witness :
    McReply.setDestructor { mcReplyDefault with destructor_ := some (7, 5) }
      9 8 = none ∧
    McReply.setDestructor mcReplyDefault 5 7 =
      some { mcReplyDefault with destructor_ := some (7, 5) } ∧
    (McReply.destroy ⟨[]⟩
        { mcReplyDefault with destructor_ := some (7, 5) }).2 = [(7, 5)] :=
  ⟨mcreply_C4_cleanup_once.1 _ 9 8 (by decide),
   mcreply_C4_cleanup_once.2.1 mcReplyDefault 5 7 (by decide),
   mcreply_C4_cleanup_once.2.2 ⟨[]⟩ _ 7 5 (by decide) (by decide)⟩

/-- C5: `value()` is total — it returns the payload when present and the
empty buffer when absent — and a default-constructed reply has no value,
an empty `value()`, and result `mc_res_unknown`. -/
theorem mcreply_C5_value_total :
    (∀ r : McReply,
      (r.hasValue = true ∧ ∃ v, r.valueData_ = some v ∧ r.value = v) ∨
      (r.hasValue = false ∧ r.value = [])) ∧
    (mcReplyDefault.hasValue = false ∧ mcReplyDefault.value = [] ∧
      mcReplyDefault.result = mc_res_unknown) := by
  constructor
  · intro r
    cases hv : r.valueData_ with
    | none =>
      right
      constructor
      · simp [McReply.hasValue, hv]
      · simp [McReply.value, hv]
    | some v =>
      left
      refine ⟨by simp [McReply.hasValue, hv], v, rfl, by simp [McReply.value, hv]⟩
  · exact ⟨rfl, rfl, rfl⟩

/-- C6: the error constructors: with a diagnostic payload the reply has
result `mc_res_local_error`, classifies as error and local-error, and
`value()` yields exactly the payload; the payload-less form has the same
result code and no payload. -/
theorem mcreply_C6_error_ctor :
    ∀ s : List Nat,
      (mcReplyErrorWith s).result = mc_res_local_error ∧
      (mcReplyErrorWith s).isError = true ∧
      (mcReplyErrorWith s).isLocalError = true ∧
      (mcReplyErrorWith s).value = s ∧
      mcReplyError.result = mc_res_local_error ∧
      mcReplyError.hasValue = false := by
  intro s
  exact ⟨rfl, rfl, rfl, rfl, rfl, rfl⟩

/-- C7: the TKO constructor: result `mc_res_tko`, no payload, and the
reply classifies as TKO, as error, and as failover-error. -/
theorem mcreply_C7_tko_ctor :
    mcReplyTko.result = mc_res_tko ∧
    mcReplyTko.hasValue = false ∧
    mcReplyTko.isTko = true ∧
    mcReplyTko.isError = true ∧
    mcReplyTko.isFailoverError = true := by
  exact ⟨rfl, rfl, rfl, rfl, rfl⟩

/-- C8: `releasedMsg(op)` leaves the source reply unchanged, and the
produced handle is self-contained: after destroying the source reply the
handle's message is still live in the heap, carrying the reply's payload
bytes (and result and op). -/
theorem mcreply_C8_released_independent (h : MsgHeap) (r : McReply) (op : Nat)
    (hwf : ∀ old, r.msg_ = some old → old < h.cells.length) :
    (McReply.releasedMsg h r op).2.1 = r ∧
    MsgHeap.lookup
        (McReply.destroy (McReply.releasedMsg h r op).1
          (McReply.releasedMsg h r op).2.1).1
        (McReply.releasedMsg h r op).2.2 =
      some { result := r.result_, op := op, value := r.value } := by
  refine ⟨rfl, ?_⟩
  cases hm : r.msg_ with
  | none =>
    simp only [McReply.releasedMsg, McReply.destroy, hm]
    exact lookup_alloc h _
  | some old =>
    have hlt := hwf old hm
    have hne : h.cells.length ≠ old := by omega
    simp only [McReply.releasedMsg, McReply.destroy, hm]
    exact lookup_alloc_decref h _ old hne

/-- C8 witness: the independence property instantiated on an
error-constructed reply with payload `[1, 2, 3]` over the empty heap. -/
theorem mcreply_C8_witness :
    (McReply.releasedMsg ⟨[]⟩ (mcReplyErrorWith [1, 2, 3]) 3).2.1 =
      mcReplyErrorWith [1, 2, 3] ∧
    MsgHeap.lookup
        (McReply.destroy
          (McReply.releasedMsg ⟨[]⟩ (mcReplyErrorWith [1, 2, 3]) 3).1
          (McReply.releasedMsg ⟨[]⟩ (mcReplyErrorWith [1, 2, 3]) 3).2.1).1
        (McReply.releasedMsg ⟨[]⟩ (mcReplyErrorWith [1, 2, 3]) 3).2.2 =
      some { result := (mcReplyErrorWith [1, 2, 3]).result_, op := 3,
             value := (mcReplyErrorWith [1, 2, 3]).value } :=
  mcreply_C8_released_independent ⟨[]⟩ (mcReplyErrorWith [1, 2, 3]) 3
    (fun _ hold => Option.noConfusion hold)

/-- C9: the ten leaf classification predicates are pairwise disjoint — no
result code satisfies more than one of them. -/
theorem mcreply_C9_leaf_disjoint :
    ∀ c : mc_res_t, leafResultPredicates.countP (fun p => p c) ≤ 1 := by
  decide

/-- C10: after `setIpAddress(addr, v)` the accessors return exactly what
was set (the setter allocates a fresh handle, replacing any attached one),
and with no handle attached `ipv()` returns 0 and `ipAddress()` the zero
address. -/
theorem mcreply_C10_ip_roundtrip (h : MsgHeap) (r : McReply) (addr : List Nat)
    (v : Nat) (hwf : ∀ old, r.msg_ = some old → old < h.cells.length) :
    McReply.ipv (McReply.setIpAddress h r addr v).1
        (McReply.setIpAddress h r addr v).2 = v ∧
    McReply.ipAddress (McReply.setIpAddress h r addr v).1
        (McReply.setIpAddress h r addr v).2 = addr ∧
    (r.msg_ = none → McReply.ipv h r = 0 ∧
      McReply.ipAddress h r = zeroIpAddr) := by
  cases hm : r.msg_ with
  | none =>
    refine ⟨?_, ?_, fun _ => ⟨?_, ?_⟩⟩
    · simp only [McReply.setIpAddress, hm, McReply.ipv, lookup_alloc]
    · simp only [McReply.setIpAddress, hm, McReply.ipAddress, lookup_alloc]
    · simp [McReply.ipv, hm]
    · simp [McReply.ipAddress, hm]
  | some old =>
    have hlt := hwf old hm
    have hne : h.cells.length ≠ old := by omega
    refine ⟨?_, ?_, fun hcontra => ?_⟩
    · simp only [McReply.setIpAddress, hm, McReply.ipv,
        lookup_alloc_decref h _ old hne]
    · simp only [McReply.setIpAddress, hm, McReply.ipAddress,
        lookup_alloc_decref h _ old hne]
    · exact Option.noConfusion hcontra

/-- C10 witness: the round-trip instantiated on a fresh reply over the
empty heap, with address bytes all 7 and version 6. -/
theorem mcreply_C10_witness :
    McReply.ipv
        (McReply.setIpAddress ⟨[]⟩ mcReplyDefault (List.replicate 16 7) 6).1
        (McReply.setIpAddress ⟨[]⟩ mcReplyDefault (List.replicate 16 7) 6).2 =
      6 ∧
    McReply.ipAddress
        (McReply.setIpAddress ⟨[]⟩ mcReplyDefault (List.replicate 16 7) 6).1
        (McReply.setIpAddress ⟨[]⟩ mcReplyDefault (List.replicate 16 7) 6).2 =
      List.replicate 16 7 ∧
    (mcReplyDefault.msg_ = none →
      McReply.ipv ⟨[]⟩ mcReplyDefault = 0 ∧
      McReply.ipAddress ⟨[]⟩ mcReplyDefault = zeroIpAddr) :=
  mcreply_C10_ip_roundtrip ⟨[]⟩ mcReplyDefault (List.replicate 16 7) 6
    (fun _ hold => Option.noConfusion hold)
